import Mathlib

/-!
# Roulette logic: shallow embedding and verification

A shallow embedding of `src/roulette.rs`: the bet catalog (`RouletteBetType`,
`RouletteBet`, `win_value`), the bet validator (`Roulette.validate_bet_option`,
`validate_bet_size`, `validate_bets`), the settlement engine
(`RouletteEvaluator.calculate_winnings`, `get_number_colour`) and the table
orchestration (`Roulette.spin`).

Machine integers are modelled by `Nat`:
* `u8` values are naturals below 256; `u8` subtraction is the wrapping
  (release-mode) subtraction `sub8`, i.e. subtraction modulo 2^8;
* `u64` products are reduced modulo 2^64 (`U64`), matching release-mode
  wrapping multiplication.

The thread RNG is modelled by passing the raw entropy consumed by a draw as
an explicit argument: `gen_range low high r` is the rand crate call `gen_range(low, high)`,
a uniform draw from the half-open interval `[low, high)`, applied to one
entropy value `r`.
-/

namespace RouletteLogic

/-- The `u64` modulus 2^64. -/
def U64 : Nat := 2 ^ 64

/-- Wrapping `u8` subtraction (release-mode semantics): `a - b` modulo 2^8,
for `a`, `b` below 256. -/
def sub8 (a b : Nat) : Nat := (a % 256 + 256 - b % 256) % 256

/-- `enum RouletteBetType`: the twelve bet shapes. Fixed-size `u8` arrays are
embedded as explicit components (in array order). -/
inductive RouletteBetType where
  | Straight (v : Nat)
  | Split (v0 v1 : Nat)
  | Street (v0 v1 v2 : Nat)
  | Basket (v0 v1 v2 : Nat)
  | Topline (v0 v1 v2 v3 : Nat)
  | Corner (v0 v1 v2 v3 : Nat)
  | Doubleline (v0 v1 v2 v3 v4 v5 : Nat)
  | Dozens (v : Nat)
  | Columns (v : Nat)
  | EvenOdd (v : Nat)
  | Highlow (v : Nat)
  | Redblack (v : Nat)
  deriving DecidableEq, Repr

/-- `struct RouletteBet`: a bet shape together with a `u64` wager. -/
structure RouletteBet where
  bet_type : RouletteBetType
  wager : Nat
  deriving DecidableEq, Repr

/-- `RouletteBet::win_value`: wager times the per-shape payout multiplier,
as a wrapping `u64` product. -/
def RouletteBet.win_value (b : RouletteBet) : Nat :=
  (b.wager * (match b.bet_type with
    | .Straight _ => 36
    | .Split _ _ => 18
    | .Street _ _ _ => 12
    | .Basket _ _ _ => 12
    | .Topline _ _ _ _ => 9
    | .Corner _ _ _ _ => 9
    | .Doubleline _ _ _ _ _ _ => 6
    | .Dozens _ => 3
    | .Columns _ => 3
    | .EvenOdd _ => 2
    | .Highlow _ => 2
    | .Redblack _ => 2)) % U64

/-- `struct RouletteBetResult`: the originating bet and its win amount.
The Rust result borrows its bet; the embedding stores a copy. -/
structure RouletteBetResult where
  bet : RouletteBet
  win : Nat
  deriving DecidableEq, Repr

/-- `enum PlaceBetError`. -/
inductive PlaceBetError where
  | InvalidBetOption (bet : RouletteBet)
  | MaxBetOnOption (bet : RouletteBet) (max : Nat)
  | MinBetNotSatisfied (bet : RouletteBet) (min : Nat)
  deriving DecidableEq, Repr

/-- `RouletteEvaluator::get_number_colour`: 0 ↦ 2; the eighteen red numbers
↦ 0; every other number ↦ 1. -/
def get_number_colour (number : Nat) : Nat :=
  match number with
  | 0 => 2
  | 1 | 3 | 5 | 7 | 9 | 12 | 14 | 16 | 18
  | 19 | 21 | 23 | 25 | 27 | 30 | 32 | 34 | 36 => 0
  | _ => 1

/-- The inner helper `calc_win` of `calculate_winnings`: pays `win_value`
when the hit predicate holds, 0 otherwise. -/
def calc_win (bet : RouletteBet) (hit : Bool) : RouletteBetResult :=
  ⟨bet, if hit then bet.win_value else 0⟩

/-- The body of the `for` loop of `RouletteEvaluator::calculate_winnings`:
the per-shape hit predicate applied to one bet.  `colour` is the colour of
the winning number, computed once per batch by the caller. -/
def evalBet (winning_number colour : Nat) (bet : RouletteBet) : RouletteBetResult :=
  match bet.bet_type with
  | .Straight v => calc_win bet (v == winning_number)
  | .Dozens v =>
      calc_win bet (decide (winning_number > 0) &&
        ((winning_number - 1) / 12 == sub8 v 1))
  | .Columns v =>
      calc_win bet (decide (winning_number > 0) &&
        (winning_number % 3 == v % 3))
  | .EvenOdd v => calc_win bet (winning_number % 2 == v)
  | .Highlow v =>
      calc_win bet
        ((v == 0 && decide (winning_number ≥ 1) && decide (winning_number ≤ 18)) ||
         (v == 1 && decide (winning_number ≥ 19) && decide (winning_number ≤ 36)))
  | .Redblack v => calc_win bet (v == colour)
  | .Split a b => calc_win bet (a == winning_number || b == winning_number)
  | .Street a b c =>
      calc_win bet (a == winning_number || b == winning_number || c == winning_number)
  | .Basket a b c =>
      calc_win bet (a == winning_number || b == winning_number || c == winning_number)
  | .Topline a b c d =>
      calc_win bet (a == winning_number || b == winning_number ||
        c == winning_number || d == winning_number)
  | .Corner a b c d =>
      calc_win bet (a == winning_number || b == winning_number ||
        c == winning_number || d == winning_number)
  | .Doubleline a b c d e f =>
      calc_win bet (a == winning_number || b == winning_number ||
        c == winning_number || d == winning_number ||
        e == winning_number || f == winning_number)

/-- `RouletteEvaluator::calculate_winnings`: computes the colour of the
winning number once, then evaluates every bet in submission order. -/
def calculate_winnings (winning_number : Nat) (bets : List RouletteBet) :
    List RouletteBetResult :=
  let colour := get_number_colour winning_number
  bets.map (evalBet winning_number colour)

/-- The street condition shared by the `Street` arm of
`Roulette::validate_bet_option` and, through the recursive calls on the two
halves, by its `Doubleline` arm. -/
def streetCheck (v0 v1 v2 : Nat) : Bool :=
  decide (v0 > 0) &&
  decide (v0 ≤ 34) &&
  ((v0 - 1) % 3 == 0) &&
  (sub8 v1 v0 == 1) &&
  (sub8 v2 v1 == 1)

/-- `Roulette::validate_bet_option`: structural legality of a bet shape,
with the boolean operators grouped exactly as in the source (`&&` binds
tighter than `||`, both in Rust and in Lean). -/
def validate_bet_option : RouletteBetType → Bool
  | .Straight v => decide (v ≤ 36)
  | .Split v0 v1 =>
      ((v0 != v1) && (decide (v0 ≤ 35) && decide (v1 ≤ 36)) && decide (v1 > v0))
        &&
      ((v0 == 0) && ((v1 == 1) || (v1 == 2) || (v1 == 3)))
        ||
      ((decide (v0 > 0) && decide (v0 ≤ 33)) &&
        (((v1 % 3 == 0) && (sub8 v1 v0 == 1) || (sub8 v1 v0 == 3)) ||
         ((v0 % 3 == 1) && (sub8 v1 v0 == 1) || (sub8 v1 v0 == 3))))
        ||
      (decide (v0 ≥ 34) && (sub8 v1 v0 == 1))
  | .Street v0 v1 v2 => streetCheck v0 v1 v2
  | .Basket v0 v1 v2 =>
      (v0 == 0) &&
      ((v1 == 1) && (v2 == 2) ||
       (v1 == 2) && (v2 == 3))
  | .Topline v0 v1 v2 v3 =>
      (v0 == 0) && (v1 == 1) && (v2 == 2) && (v3 == 3)
  | .Corner v0 v1 v2 v3 =>
      decide (v0 > 0) &&
      (v0 % 3 != 0) &&
      (sub8 v1 v0 == 1) &&
      (sub8 v3 v2 == 1) &&
      (sub8 v3 v1 == 3) &&
      (sub8 v2 v0 == 3)
  | .Doubleline v0 v1 v2 v3 v4 v5 =>
      streetCheck v0 v1 v2 && streetCheck v3 v4 v5
  | .Dozens v => decide (v ≥ 1) && decide (v ≤ 3)
  | .Columns v => decide (v ≥ 1) && decide (v ≤ 3)
  | .EvenOdd v => decide (v ≤ 1)
  | .Highlow v => decide (v ≤ 1)
  | .Redblack v => decide (v ≤ 1)

/-- `Roulette::min_bet_for_option`: the per-shape minimum-stake factor. -/
def min_bet_for_option : RouletteBetType → Nat
  | .Straight _ => 1
  | .Split _ _ => 1
  | .Street _ _ _ => 1
  | .Basket _ _ _ => 1
  | .Topline _ _ _ _ => 1
  | .Corner _ _ _ _ => 1
  | .Doubleline _ _ _ _ _ _ => 1
  | .Dozens _ => 1
  | .Columns _ => 1
  | .EvenOdd _ => 1
  | .Highlow _ => 1
  | .Redblack _ => 1

/-- `struct Roulette` without the RNG handle: the spin history and the
table minimum bet size.  The entropy of the RNG is passed to `spin`
explicitly. -/
structure Roulette where
  history : List Nat
  min_bet_size : Nat
  deriving DecidableEq, Repr

/-- `Roulette::new`: empty history, minimum bet size 1. -/
def Roulette.new : Roulette := ⟨[], 1⟩

/-- `Roulette::validate_bet_size`.  In the source the check reads
`min_bet_for_option(bet.bet_type()) & self.min_bet_size <= bet.wager()`;
in Rust the `&` (bitwise AND, `Nat.land` here) binds tighter than `<=`. -/
def Roulette.validate_bet_size (t : Roulette) (bet : RouletteBet) : Bool :=
  decide (Nat.land (min_bet_for_option bet.bet_type) t.min_bet_size ≤ bet.wager)

/-- One iteration of the validation loop of `Roulette::validate_bets`: the
error pushed for this bet, if any (shape check first, then stake check). -/
def Roulette.betError (t : Roulette) (bet : RouletteBet) : Option PlaceBetError :=
  if !(validate_bet_option bet.bet_type) then
    some (.InvalidBetOption bet)
  else if !(t.validate_bet_size bet) then
    some (.MinBetNotSatisfied bet (t.min_bet_size * min_bet_for_option bet.bet_type))
  else
    none

/-- `Roulette::validate_bets`: collects the per-bet errors over the whole
batch and fails exactly when the collected list is non-empty. -/
def Roulette.validate_bets (t : Roulette) (bets : List RouletteBet) :
    Except (List PlaceBetError) Unit :=
  let errors := bets.filterMap t.betError
  if errors.length == 0 then .ok () else .error errors

/-- Model of the rand crate call `gen_range(low, high)`: a uniform draw
from the half-open interval `[low, high)`, here applied to one raw entropy
value `r`. -/
def gen_range (low high r : Nat) : Nat := low + r % (high - low)

/-- `Roulette::spin`: validate the batch; on failure return the error list
with the table unchanged; on success draw `gen_range 0 36 r`, append it to
the history and settle the bets. -/
def Roulette.spin (t : Roulette) (bets : List RouletteBet) (r : Nat) :
    Except (List PlaceBetError) (Nat × List RouletteBetResult) × Roulette :=
  match t.validate_bets bets with
  | .error errs => (.error errs, t)
  | .ok _ =>
      let number := gen_range 0 36 r
      (.ok (number, calculate_winnings number bets),
       { t with history := t.history ++ [number] })

/-- Iterated spins on an empty bet list, consuming one entropy value per
spin; returns the winning numbers in draw order and the final table. -/
def Roulette.spins (t : Roulette) (rs : List Nat) : List Nat × Roulette :=
  match rs with
  | [] => ([], t)
  | r :: rest =>
      match t.spin [] r with
      | (.ok (n, _), t') =>
          let (ns, t'') := t'.spins rest
          (n :: ns, t'')
      | (.error _, t') => ([], t')

/-- Split legality as the specification words it: accepted exactly when
a < b, b ≤ 36, and one of three disjuncts holds — the zero verticals, the
main-grid clause (right edge or distance three), or the bottom-row
horizontals.  Written from the specification, to be compared with the
source function `validate_bet_option`. -/
def splitLegalSpec (a b : Nat) : Prop :=
  a < b ∧ b ≤ 36 ∧
    ((a = 0 ∧ (b = 1 ∨ b = 2 ∨ b = 3)) ∨
     (1 ≤ a ∧ a ≤ 33 ∧ ((b - a = 1 ∧ b % 3 = 0) ∨ b - a = 3)) ∨
     (34 ≤ a ∧ b - a = 1))

/-- Split legality as the source actually computes it on `u8` values: the
duplicate/range guard gates only the zero clause; the main-grid clause also
contains a left-edge disjunct (`a % 3 = 1` with `b = a + 1`); the bottom
clause requires only `a ≥ 34` and a wrapping difference of one, which for
`u8` values also admits `a = 255, b = 0`. -/
def splitLegalAmended (a b : Nat) : Prop :=
  (a = 0 ∧ (b = 1 ∨ b = 2 ∨ b = 3)) ∨
  (1 ≤ a ∧ a ≤ 33 ∧
    ((b = a + 1 ∧ b % 3 = 0) ∨ b = a + 3 ∨ (b = a + 1 ∧ a % 3 = 1))) ∨
  (34 ≤ a ∧ (b = a + 1 ∨ (a = 255 ∧ b = 0)))

/-- The twelve-bet settlement scenario of the specification (and of the
test `rouletteeval_calc_winnings`): each bet carries a wager of 10. -/
def scenarioBets : List RouletteBet :=
  [⟨.Straight 1, 10⟩,
   ⟨.Split 1 2, 10⟩,
   ⟨.Street 1 2 3, 10⟩,
   ⟨.Basket 0 1 2, 10⟩,
   ⟨.Topline 0 1 2 3, 10⟩,
   ⟨.Corner 1 2 4 5, 10⟩,
   ⟨.Doubleline 1 2 3 4 5 6, 10⟩,
   ⟨.Dozens 1, 10⟩,
   ⟨.Columns 1, 10⟩,
   ⟨.EvenOdd 0, 10⟩,
   ⟨.Highlow 0, 10⟩,
   ⟨.Redblack 1, 10⟩]

/-! ## Helper lemmas -/

/-- Every shape has minimum-stake factor 1. -/
theorem min_bet_for_option_eq_one (s : RouletteBetType) : min_bet_for_option s = 1 := by
  cases s <;> rfl

/-- Settlement never alters the bet stored in a result. -/
theorem evalBet_bet (n c : Nat) (b : RouletteBet) : (evalBet n c b).bet = b := by
  cases h : b.bet_type <;> simp [evalBet, h, calc_win]

/-- The length of a `filterMap` counts the elements on which the function
succeeds. -/
theorem length_filterMap_eq_countP (f : α → Option β) (l : List α) :
    (l.filterMap f).length = l.countP (fun a => (f a).isSome) := by
  induction l with
  | nil => rfl
  | cons a l ih =>
      rw [List.filterMap_cons, List.countP_cons]
      cases h : f a <;> simp [h, ih]

/-- A spin on an empty bet list draws `gen_range 0 36 r`, settles nothing
and appends the draw to the history. -/
theorem spin_nil (t : Roulette) (r : Nat) :
    t.spin [] r =
      (.ok (gen_range 0 36 r, []),
       { t with history := t.history ++ [gen_range 0 36 r] }) := rfl

/-- Iterated empty-bet spins: the drawn numbers are the reduced entropy
values, and the final history is the initial one extended by them. -/
theorem spins_spec (rs : List Nat) (t : Roulette) :
    (t.spins rs).1 = rs.map (fun r => gen_range 0 36 r) ∧
    (t.spins rs).2.history = t.history ++ (t.spins rs).1 := by
  induction rs generalizing t with
  | nil => simp [Roulette.spins]
  | cons r rest ih =>
      have h := spin_nil t r
      simp only [Roulette.spins, h, List.map_cons]
      obtain ⟨h1, h2⟩ := ih { t with history := t.history ++ [gen_range 0 36 r] }
      constructor
      · simpa using h1
      · simpa [h1, List.append_assoc] using h2

/-! ## Claims -/

/-- C1 counterexample: the specification formula rejects Split(1, 2)
(distance one, but 2 is not a multiple of three and 1 is below 34), yet the
validator accepts it through the left-edge clause of the main-grid branch. -/
theorem C1_split_counterexample :
    validate_bet_option (.Split 1 2) = true ∧ ¬ splitLegalSpec 1 2 := by
  constructor
  · rfl
  · unfold splitLegalSpec
    omega

set_option maxHeartbeats 3000000 in
/-- C1 (amended): on `u8` values the validator accepts Split(a, b) exactly
when (a = 0 and b ∈ {1, 2, 3}), or (a in 1..33 and (b = a + 1 with
b divisible by 3, or b = a + 3, or b = a + 1 with a ≡ 1 mod 3)), or
(a ≥ 34 and b ≡ a + 1 mod 256).  The duplicate/range guard of the source
gates only the zero clause, so b ≤ 36 is not required on the other
branches. -/
theorem C1_split_amended (a b : Nat) (ha : a < 256) (hb : b < 256) :
    validate_bet_option (.Split a b) = true ↔ splitLegalAmended a b := by
  simp only [validate_bet_option, splitLegalAmended, sub8,
    Bool.or_eq_true, Bool.and_eq_true, decide_eq_true_eq, beq_iff_eq,
    bne_iff_ne, gt_iff_lt, ge_iff_le, ne_eq]
  omega

/-- C1 witness: the amended characterization applied to the zero split
Split(0, 1). -/
theorem C1_split_amended_witness :
    validate_bet_option (.Split 0 1) = true ↔ splitLegalAmended 0 1 :=
  C1_split_amended 0 1 (by decide) (by decide)

/-- C2: settlement yields one result per input bet in submission order, and
on the twelve-bet scenario with winning number 2 the win amounts are
[0, 180, 120, 120, 90, 90, 60, 30, 0, 20, 20, 20], totalling 750. -/
theorem C2_settlement_scenario :
    (∀ (n : Nat) (bets : List RouletteBet),
      (calculate_winnings n bets).map RouletteBetResult.bet = bets ∧
      (calculate_winnings n bets).length = bets.length) ∧
    (calculate_winnings 2 scenarioBets).map RouletteBetResult.win =
      [0, 180, 120, 120, 90, 90, 60, 30, 0, 20, 20, 20] ∧
    ((calculate_winnings 2 scenarioBets).map RouletteBetResult.win).sum = 750 := by
  refine ⟨fun n bets => ⟨?_, ?_⟩, by decide, by decide⟩
  · simp [calculate_winnings, List.map_map, Function.comp_def, evalBet_bet]
  · simp [calculate_winnings]

/-- C3: the winning number of every successful spin is at most 35, so 36 is
never drawn — the source calls the half-open `gen_range(0, 36)`. -/
theorem C3_draw_never_36 (t : Roulette) (bets : List RouletteBet) (r : Nat)
    (p : Nat × List RouletteBetResult) (t' : Roulette)
    (h : t.spin bets r = (.ok p, t')) : p.1 ≤ 35 ∧ p.1 ≠ 36 := by
  unfold Roulette.spin at h
  cases hv : t.validate_bets bets with
  | error errs => rw [hv] at h; exact absurd h (by simp)
  | ok u =>
      rw [hv] at h
      have hp : p.1 = gen_range 0 36 r := by
        have := congrArg Prod.fst h
        simp at this
        rw [← this]
      have : r % 36 < 36 := Nat.mod_lt r (by omega)
      unfold gen_range at hp
      omega

/-- C3 witness: a concrete successful spin (fresh table, empty bets,
entropy 0) whose draw is below 36. -/
theorem C3_draw_never_36_witness :
    ((0 : Nat), ([] : List RouletteBetResult)).1 ≤ 35 ∧
    ((0 : Nat), ([] : List RouletteBetResult)).1 ≠ 36 :=
  C3_draw_never_36 Roulette.new [] 0 (0, []) ⟨[0], 1⟩ rfl

/-- C4: a batch with at least one invalid bet makes `spin` return the full
aggregated error list (one error per invalid bet, in batch order), leave
the table — in particular its history — unchanged, and consume no
randomness: the outcome does not depend on the entropy argument. -/
theorem C4_all_or_nothing (t : Roulette) (bets : List RouletteBet) (r : Nat)
    (hbad : ∃ b ∈ bets, t.betError b ≠ none) :
    t.spin bets r = (.error (bets.filterMap t.betError), t) ∧
    (bets.filterMap t.betError).length =
      bets.countP (fun b => (t.betError b).isSome) ∧
    (∀ b ∈ bets, t.betError b ≠ none →
      ∃ e ∈ bets.filterMap t.betError, t.betError b = some e) ∧
    (∀ r', t.spin bets r' = t.spin bets r) := by
  obtain ⟨b, hb, hberr⟩ := hbad
  cases hsome : t.betError b with
  | none => exact absurd hsome hberr
  | some e =>
      have hmem : e ∈ bets.filterMap t.betError :=
        List.mem_filterMap.mpr ⟨b, hb, hsome⟩
      have hne : (bets.filterMap t.betError).length ≠ 0 := by
        intro hlen
        rw [List.length_eq_zero] at hlen
        rw [hlen] at hmem
        exact absurd hmem (List.not_mem_nil e)
      have hval : t.validate_bets bets = .error (bets.filterMap t.betError) := by
        unfold Roulette.validate_bets
        simp [hne]
      have hspin : ∀ r'', t.spin bets r'' = (.error (bets.filterMap t.betError), t) := by
        intro r''
        unfold Roulette.spin
        rw [hval]
      refine ⟨hspin r, length_filterMap_eq_countP _ _, ?_, fun r' => by rw [hspin r', hspin r]⟩
      intro b' hb' hb'err
      cases hsome' : t.betError b' with
      | none => exact absurd hsome' hb'err
      | some e' => exact ⟨e', List.mem_filterMap.mpr ⟨b', hb', hsome'⟩, rfl⟩

/-- C4 witness: one invalid-shape bet and one under-staked bet yield two
errors, no draw, and an unchanged fresh table. -/
theorem C4_all_or_nothing_witness :
    Roulette.new.spin [⟨.Straight 37, 10⟩, ⟨.Straight 1, 0⟩] 7 =
      (.error ([⟨.Straight 37, 10⟩, ⟨.Straight 1, 0⟩].filterMap Roulette.new.betError),
       Roulette.new) :=
  (C4_all_or_nothing Roulette.new [⟨.Straight 37, 10⟩, ⟨.Straight 1, 0⟩] 7
    ⟨⟨.Straight 37, 10⟩, by simp, by simp [Roulette.betError, validate_bet_option]⟩).1

/-- C5: the colour classifier maps every number in [0, 36] into {0, 1, 2},
sends 0 to 2, colours exactly 18 non-zero numbers red (0) and exactly 18
black (1); hence a Redblack bet with flag in {0, 1} never wins when the
winning number is 0. -/
theorem C5_colour_classification :
    (∀ n, n ≤ 36 →
      get_number_colour n = 0 ∨ get_number_colour n = 1 ∨ get_number_colour n = 2) ∧
    get_number_colour 0 = 2 ∧
    ((List.range 37).filter
      (fun n => decide (n ≠ 0) && (get_number_colour n == 0))).length = 18 ∧
    ((List.range 37).filter
      (fun n => decide (n ≠ 0) && (get_number_colour n == 1))).length = 18 ∧
    (∀ flag w, flag ≤ 1 →
      (calculate_winnings 0 [⟨.Redblack flag, w⟩]).map RouletteBetResult.win = [0]) := by
  refine ⟨?_, rfl, by decide, by decide, ?_⟩
  · intro n _
    unfold get_number_colour
    split <;> simp
  · intro flag w hflag
    interval_cases flag <;>
      simp [calculate_winnings, evalBet, calc_win, get_number_colour]

/-- C5 witness: the classifier at 0 and a concrete zero-draw Redblack loss. -/
theorem C5_colour_classification_witness :
    get_number_colour 0 = 2 ∧
    (calculate_winnings 0 [⟨.Redblack 1, 10⟩]).map RouletteBetResult.win = [0] :=
  ⟨C5_colour_classification.2.1,
   C5_colour_classification.2.2.2.2 1 10 (by decide)⟩

/-- C6: on a table with minimum bet size 1 (the value set by `new` and
preserved by `spin`), a legal-shape bet fails the stake check with
`MinBetNotSatisfied`, carrying the minimum `min_bet_size * factor`, exactly
when its wager is strictly below that minimum; equivalently it passes
validation exactly when its wager is at least 1. -/
theorem C6_min_stake (t : Roulette) (hm : t.min_bet_size = 1)
    (bet : RouletteBet) (hshape : validate_bet_option bet.bet_type = true) :
    (t.betError bet =
        some (.MinBetNotSatisfied bet (t.min_bet_size * min_bet_for_option bet.bet_type))
      ↔ bet.wager < t.min_bet_size * min_bet_for_option bet.bet_type) ∧
    (t.betError bet = none ↔ 1 ≤ bet.wager) ∧
    Roulette.new.min_bet_size = 1 ∧
    (∀ bets r, ((t.spin bets r).2).min_bet_size = t.min_bet_size) := by
  have hfac := min_bet_for_option_eq_one bet.bet_type
  have hland : Nat.land (min_bet_for_option bet.bet_type) t.min_bet_size = 1 := by
    rw [hfac, hm]; rfl
  refine ⟨?_, ?_, rfl, ?_⟩
  · unfold Roulette.betError Roulette.validate_bet_size
    rw [hshape, hland, hfac, hm]
    by_cases hw : 1 ≤ bet.wager <;> simp [hw] <;> omega
  · unfold Roulette.betError Roulette.validate_bet_size
    rw [hshape, hland]
    by_cases hw : 1 ≤ bet.wager <;> simp [hw]
  · intro bets r
    unfold Roulette.spin
    cases hv : t.validate_bets bets <;> simp

/-- C6 witness: on the fresh table, a Straight bet of wager 0 fails the
stake check and a wager of 1 passes. -/
theorem C6_min_stake_witness :
    (Roulette.new.betError ⟨.Straight 1, 0⟩ = none ↔ 1 ≤ (0 : Nat)) ∧
    (Roulette.new.betError ⟨.Straight 1, 1⟩ = none ↔ 1 ≤ (1 : Nat)) :=
  ⟨(C6_min_stake Roulette.new rfl ⟨.Straight 1, 0⟩ (by decide)).2.1,
   (C6_min_stake Roulette.new rfl ⟨.Straight 1, 1⟩ (by decide)).2.1⟩

/-- C7: the validator is total over every constructible shape — each one
evaluates to a definite boolean — and violating the ascending-order
precondition degrades silently: the unsorted Doubleline(4,5,6,1,2,3) is
classified legal, and the unsorted Split(3,1) evaluates (through wrapping
`u8` subtraction) to illegal, with no abort in either case. -/
theorem C7_validator_total :
    (∀ s : RouletteBetType,
      validate_bet_option s = true ∨ validate_bet_option s = false) ∧
    (¬ 6 < 1 ∧ validate_bet_option (.Doubleline 4 5 6 1 2 3) = true) ∧
    (¬ 3 < 1 ∧ validate_bet_option (.Split 3 1) = false) := by
  refine ⟨fun s => ?_, ⟨by omega, by decide⟩, ⟨by omega, by decide⟩⟩
  cases h : validate_bet_option s
  · exact Or.inr rfl
  · exact Or.inl rfl

/-- C8: a spin on an empty bet list always succeeds and appends exactly the
drawn number; in general the history grows by the drawn number on success
and is untouched on failure; after N empty-bet spins on a fresh table the
history has length N and lists the returned winning numbers in draw
order. -/
theorem C8_history :
    (∀ (t : Roulette) (r : Nat),
      t.spin [] r =
        (.ok (gen_range 0 36 r, []),
         { t with history := t.history ++ [gen_range 0 36 r] })) ∧
    (∀ (t : Roulette) (bets : List RouletteBet) (r : Nat),
      (t.spin bets r).2.history = t.history ++
        (match (t.spin bets r).1 with
         | .ok p => [p.1]
         | .error _ => [])) ∧
    (∀ rs : List Nat,
      (Roulette.new.spins rs).1.length = rs.length ∧
      (Roulette.new.spins rs).2.history = (Roulette.new.spins rs).1) := by
  refine ⟨spin_nil, ?_, ?_⟩
  · intro t bets r
    unfold Roulette.spin
    cases hv : t.validate_bets bets <;> simp
  · intro rs
    obtain ⟨h1, h2⟩ := spins_spec rs Roulette.new
    constructor
    · rw [h1, List.length_map]
    · simpa [Roulette.new] using h2

/-- C9: whenever a spin fails, the returned errors are exactly the per-bet
validation errors in batch order (so at most one per bet), none of them is
`MaxBetOnOption`, and every bet whose shape is illegal contributes an
`InvalidBetOption` error (taking precedence over the stake check). -/
theorem C9_error_taxonomy (t : Roulette) (bets : List RouletteBet) (r : Nat)
    (errs : List PlaceBetError) (t' : Roulette)
    (h : t.spin bets r = (.error errs, t')) :
    errs = bets.filterMap t.betError ∧
    (∀ e ∈ errs, ∀ b cap, e ≠ .MaxBetOnOption b cap) ∧
    errs.length ≤ bets.length ∧
    (∀ b ∈ bets, validate_bet_option b.bet_type = false →
      .InvalidBetOption b ∈ errs) := by
  unfold Roulette.spin at h
  cases hv : t.validate_bets bets with
  | ok u => rw [hv] at h; exact absurd h (by simp)
  | error errs0 =>
      rw [hv] at h
      have herrs : errs = errs0 := by
        have := congrArg Prod.fst h
        simp at this
        rw [this]
      unfold Roulette.validate_bets at hv
      by_cases hlen : (bets.filterMap t.betError).length = 0
      · simp [hlen] at hv
      · simp [hlen] at hv
        have heq : errs = bets.filterMap t.betError := by rw [herrs, ← hv]
        refine ⟨heq, ?_, ?_, ?_⟩
        · intro e he b cap
          rw [heq] at he
          obtain ⟨b', _, hb'⟩ := List.mem_filterMap.mp he
          unfold Roulette.betError at hb'
          split at hb'
          · intro hcontra; rw [hcontra] at hb'; exact absurd hb' (by simp)
          · split at hb'
            · intro hcontra; rw [hcontra] at hb'; exact absurd hb' (by simp)
            · exact absurd hb' (by simp)
        · rw [heq, length_filterMap_eq_countP]
          exact List.countP_le_length _
        · intro b hb hbshape
          rw [heq]
          refine List.mem_filterMap.mpr ⟨b, hb, ?_⟩
          unfold Roulette.betError
          rw [hbshape]
          rfl

/-- C9 witness: a single illegal-shape bet produces exactly its
`InvalidBetOption` error and nothing else. -/
theorem C9_error_taxonomy_witness :
    ([PlaceBetError.InvalidBetOption ⟨.Straight 37, 1⟩] =
      [(⟨.Straight 37, 1⟩ : RouletteBet)].filterMap Roulette.new.betError) ∧
    PlaceBetError.InvalidBetOption (⟨.Straight 37, 1⟩ : RouletteBet) ∈
      [PlaceBetError.InvalidBetOption ⟨.Straight 37, 1⟩] := by
  have h := C9_error_taxonomy Roulette.new [⟨.Straight 37, 1⟩] 0
    [.InvalidBetOption ⟨.Straight 37, 1⟩] Roulette.new rfl
  exact ⟨h.1, h.2.2.2 ⟨.Straight 37, 1⟩ (by simp) (by decide)⟩

/-- C10: when the winning number is 0, an EvenOdd(0) bet hits (0 mod 2 = 0)
and wins twice its wager, while a Redblack bet with flag in {0, 1} misses,
and Highlow, Dozens and Columns bets miss for every flag (the
`winning_number > 0` guard, and the empty low/high ranges at 0, rule them
all out). -/
theorem C10_zero_even (w v : Nat) (hw : 2 * w < U64) (hv : v ≤ 1) :
    calculate_winnings 0 [⟨.EvenOdd 0, w⟩] = [⟨⟨.EvenOdd 0, w⟩, 2 * w⟩] ∧
    calculate_winnings 0 [⟨.Redblack v, w⟩] = [⟨⟨.Redblack v, w⟩, 0⟩] ∧
    (∀ u : Nat,
      calculate_winnings 0 [⟨.Highlow u, w⟩] = [⟨⟨.Highlow u, w⟩, 0⟩] ∧
      calculate_winnings 0 [⟨.Dozens u, w⟩] = [⟨⟨.Dozens u, w⟩, 0⟩] ∧
      calculate_winnings 0 [⟨.Columns u, w⟩] = [⟨⟨.Columns u, w⟩, 0⟩]) := by
  refine ⟨?_, ?_, fun u => ⟨?_, ?_, ?_⟩⟩
  · simp only [calculate_winnings, get_number_colour, List.map_cons, List.map_nil,
      evalBet, calc_win, RouletteBet.win_value]
    simp [Nat.mod_eq_of_lt (by omega : w * 2 < U64), Nat.mul_comm]
  · interval_cases v <;> simp [calculate_winnings, evalBet, calc_win, get_number_colour]
  · simp [calculate_winnings, evalBet, calc_win, get_number_colour]
  · simp [calculate_winnings, evalBet, calc_win, get_number_colour]
  · simp [calculate_winnings, evalBet, calc_win, get_number_colour]

/-- C10 witness: winning number 0 with wager 10 — EvenOdd(0) pays 20, while
Redblack(1), Highlow(1), Dozens(2) and Columns(3) pay nothing. -/
theorem C10_zero_even_witness :
    calculate_winnings 0 [⟨.EvenOdd 0, 10⟩] = [⟨⟨.EvenOdd 0, 10⟩, 20⟩] ∧
    calculate_winnings 0 [⟨.Redblack 1, 10⟩] = [⟨⟨.Redblack 1, 10⟩, 0⟩] ∧
    calculate_winnings 0 [⟨.Highlow 1, 10⟩] = [⟨⟨.Highlow 1, 10⟩, 0⟩] ∧
    calculate_winnings 0 [⟨.Dozens 2, 10⟩] = [⟨⟨.Dozens 2, 10⟩, 0⟩] ∧
    calculate_winnings 0 [⟨.Columns 3, 10⟩] = [⟨⟨.Columns 3, 10⟩, 0⟩] :=
  have h := C10_zero_even 10 1 (by decide) (by decide)
  ⟨h.1, h.2.1, (h.2.2 1).1, (h.2.2 2).2.1, (h.2.2 3).2.2⟩

end RouletteLogic
